import Mathlib

/-!
# Verification of the rubble Link-Layer data-channel core

Shallow embedding of `src/rubble/src/link/responder.rs` (the `Responder`
dispatcher, the LLCP initiation capability `LLCPTx`) together with the
collaborators it is written against: the packet queue contract, the L2CAP
segmentation/reassembly engine, and the LLCP control-PDU encoding.  The
collaborators are not part of the given sources, so they are modelled from
the specification (each such definition says so in its doc comment); the
`Responder` and `LLCPTx` definitions follow `responder.rs` line by line.

Bytes are modelled as `Nat` (values < 256 where encoding matters), queues as
lists of framed records, and the two possible process aborts (`unwrap` of a
`None` receive consumer, the `unreachable!` for control opcodes owned by the
real-time layer) as explicit outcomes of a `Res` type.
-/

/-- Error type of the crate (`Error::Eof`, `Error::QueueFull`,
`Error::InvalidState`, plus the values used for reassembly protocol
errors). -/
inductive Error where
  | Eof
  | QueueFull
  | InvalidState
  | InvalidLength
  | InvalidValue
  deriving DecidableEq, Repr

/-- LLID tag of a data-channel PDU: the one-byte discriminant of a framed
queue record (`Control` | `DataStart` | `DataCont`). -/
inductive Llid where
  | Control
  | DataStart
  | DataCont
  deriving DecidableEq, Repr

/-- Modelled from the spec: `ConnectionParamRequest` (the payload of a
*Connection Parameters Request Procedure* control message) is not under
`src/`; per the spec it carries the requested connection parameters, encoded
as fixed-size little-endian fields after the opcode byte. -/
structure ConnectionParamRequest where
  interval_min : Nat
  interval_max : Nat
  slave_latency : Nat
  supervision_timeout : Nat
  deriving DecidableEq, Repr

/-- Two-byte little-endian encoding of a 16-bit value. -/
def le16 (n : Nat) : List Nat := [n % 256, n / 256 % 256]

/-- Reads a 16-bit value from two little-endian bytes. -/
def read16 (b0 b1 : Nat) : Nat := b0 + 256 * b1

/-- Modelled from the spec: the `ControlPdu` tagged union of LLCP procedure
messages (`llcp.rs` is not under `src/`).  It has the variants named by the
spec and by `responder.rs` (feature/version negotiation, connection-parameter
request, "unknown PDU" rejection) plus a variant standing for the remaining
opcodes ("etc."), each with a fixed opcode. -/
inductive ControlPdu where
  | FeatureReq (features : Nat)
  | VersionInd (vers comp_id sub_vers : Nat)
  | ConnectionParamReq (params : ConnectionParamRequest)
  | UnknownRsp (unknown_type : Nat)
  | otherOpcode (op : Nat)
  deriving DecidableEq, Repr

/-- The fixed opcode of each control PDU variant. -/
def ControlPdu.opcode : ControlPdu → Nat
  | .FeatureReq _ => 8
  | .VersionInd _ _ _ => 12
  | .ConnectionParamReq _ => 15
  | .UnknownRsp _ => 7
  | .otherOpcode op => op

/-- Modelled from the spec: encoded size of a control PDU (opcode byte plus
fixed-size fields). -/
def ControlPdu.encoded_size : ControlPdu → Nat
  | .FeatureReq _ => 9
  | .VersionInd _ _ _ => 6
  | .ConnectionParamReq _ => 9
  | .UnknownRsp _ => 2
  | .otherOpcode _ => 1

/-- Eight-byte little-endian encoding (used for the feature set). -/
def leBytes : Nat → Nat → List Nat
  | 0, _ => []
  | k + 1, n => n % 256 :: leBytes k (n / 256)

/-- Reads a little-endian value from a byte list. -/
def readBytes : List Nat → Nat
  | [] => 0
  | b :: rest => b + 256 * readBytes rest

/-- Modelled from the spec: control-PDU encoding — a fixed opcode byte per
variant followed by the variant's fixed-size little-endian fields; the
"unknown PDU" reply carries the rejected opcode verbatim. -/
def ControlPdu.to_bytes : ControlPdu → List Nat
  | .FeatureReq features => 8 :: leBytes 8 features
  | .VersionInd vers comp sub => 12 :: vers :: (le16 comp ++ le16 sub)
  | .ConnectionParamReq p =>
      15 :: (le16 p.interval_min ++ le16 p.interval_max ++
             le16 p.slave_latency ++ le16 p.supervision_timeout)
  | .UnknownRsp unknown_type => [7, unknown_type]
  | .otherOpcode op => [op]

/-- Modelled from the spec: control-PDU decoding, inverse of `to_bytes` on
the opcode byte and the variant's fields. -/
def ControlPdu.from_bytes : List Nat → Except Error ControlPdu
  | 8 :: rest =>
      if rest.length = 8 then .ok (.FeatureReq (readBytes rest))
      else .error .InvalidLength
  | [12, vers, c0, c1, s0, s1] =>
      .ok (.VersionInd vers (read16 c0 c1) (read16 s0 s1))
  | [15, a0, a1, b0, b1, c0, c1, d0, d1] =>
      .ok (.ConnectionParamReq
        ⟨read16 a0 a1, read16 b0 b1, read16 c0 c1, read16 d0 d1⟩)
  | [7, unknown_type] => .ok (.UnknownRsp unknown_type)
  | op :: _ => .ok (.otherOpcode op)
  | [] => .error .Eof

/-- True for the control opcodes that are guaranteed to be intercepted by
the real-time context before reaching the `Responder` (the arms of the
`unreachable!` match in `process_one`). -/
def ControlPdu.handledByRealtime : ControlPdu → Bool
  | .FeatureReq _ => true
  | .VersionInd _ _ _ => true
  | _ => false

/-- The data-channel `Pdu` tagged union dispatched by `process_one`
(`Control` carries its decoded control PDU — `data.read()` in the source
re-reads the validated bytes). -/
inductive Pdu where
  | Control (data : ControlPdu)
  | DataStart (message : List Nat)
  | DataCont (message : List Nat)
  deriving DecidableEq, Repr

instance {ε α : Type} [DecidableEq ε] [DecidableEq α] : DecidableEq (Except ε α) :=
  fun a b =>
    match a, b with
    | .ok x, .ok y => if h : x = y then .isTrue (by rw [h]) else .isFalse (by simp [h])
    | .error x, .error y => if h : x = y then .isTrue (by rw [h]) else .isFalse (by simp [h])
    | .ok _, .error _ => .isFalse (by simp)
    | .error _, .ok _ => .isFalse (by simp)

/-- Modelled from the spec: a dequeue outcome wrapper distinguishing
"commit removal, return value" from "leave record in place, retry later"
(`queue::Consume`). -/
structure Consume (α : Type) where
  should_consume : Bool
  result : Except Error α
  deriving DecidableEq, Repr

/-- Modelled from the spec: consume the record iff `result` is a success
(`Consume::on_success`). -/
def Consume.on_success {α : Type} (result : Except Error α) : Consume α :=
  ⟨match result with | .ok _ => true | .error _ => false, result⟩

/-- Modelled from the spec: consume the record regardless of `result`
(`Consume::always`). -/
def Consume.always {α : Type} (result : Except Error α) : Consume α :=
  ⟨true, result⟩

/-- Modelled from the spec: the transmit half of a bounded packet queue —
a fixed byte capacity of which `freeBytes` remain, and the framed records
committed so far (tag plus body bytes). -/
structure TxQueue where
  records : List (Llid × List Nat)
  freeBytes : Nat
  deriving DecidableEq, Repr

/-- Modelled from the spec: `produce(size_hint, writer)` — reserves `size`
bytes, commits the record atomically if capacity sufficed, and fails with
`QueueFull` otherwise with no partial write visible. -/
def TxQueue.produce (tx : TxQueue) (size : Nat) (tag : Llid) (bytes : List Nat) :
    Except Error TxQueue :=
  if size ≤ tx.freeBytes then
    .ok { records := tx.records ++ [(tag, bytes)], freeBytes := tx.freeBytes - size }
  else
    .error .QueueFull

/-- Modelled from the spec: the receive half of a packet queue, as the list
of framed records not yet committed-consumed (head = next unread record). -/
def RxQueue : Type := List Pdu

instance : DecidableEq RxQueue := inferInstanceAs (DecidableEq (List Pdu))

instance : Repr RxQueue := inferInstanceAs (Repr (List Pdu))

/-- Modelled from the spec: `has_data()` — O(1), non-blocking, true iff
`consume` would find at least one record. -/
def RxQueue.has_data (q : RxQueue) : Bool := !q.isEmpty

/-- Modelled from the spec: the per-connection reassembly status — idle, or
assembling toward a declared total length for a recorded channel, with the
fragments buffered so far. -/
inductive ReassemblyState where
  | idle
  | assembling (channel : Nat) (total : Nat) (buffer : List Nat)
  deriving DecidableEq, Repr

/-- Modelled from the spec: the `L2CAPState` — the reassembly status plus
the payloads handed to the externally supplied channel-routing capability
(recorded here as the list of `(channel, payload)` deliveries, in delivery
order). -/
structure L2CAPState where
  reassembly : ReassemblyState
  delivered : List (Nat × List Nat)
  deriving DecidableEq, Repr

/-- Modelled from the spec: `process_start(message)` of the reassembly
engine.  The message begins with a little-endian length field and channel
identifier; a truncated header is a fatal protocol error.  If the whole
payload is present in this one fragment it is forwarded immediately and the
state resets to idle; otherwise the fragment is buffered and the engine
awaits continuations.  The engine is transiently bound to the outbound
producer for the duration of the call. -/
def process_start (l2 : L2CAPState) (tx : TxQueue) (message : List Nat) :
    Consume Unit × L2CAPState × TxQueue :=
  match message with
  | b0 :: b1 :: c0 :: c1 :: payload =>
      let total := read16 b0 b1
      let channel := read16 c0 c1
      if total ≤ payload.length then
        (Consume.always (.ok ()),
         { reassembly := .idle, delivered := l2.delivered ++ [(channel, payload)] },
         tx)
      else
        (Consume.always (.ok ()),
         { l2 with reassembly := .assembling channel total payload },
         tx)
  | _ => (Consume.always (.error .InvalidLength), l2, tx)

/-- Modelled from the spec: `process_cont(message)` of the reassembly
engine.  Fails if no reassembly is in progress; otherwise appends the
fragment, and once the accumulated length reaches the declared total the
complete payload is forwarded to the routing capability keyed by the
channel recorded at `process_start`, and the state resets to idle. -/
def process_cont (l2 : L2CAPState) (tx : TxQueue) (message : List Nat) :
    Consume Unit × L2CAPState × TxQueue :=
  match l2.reassembly with
  | .idle => (Consume.always (.error .InvalidValue), l2, tx)
  | .assembling channel total buffer =>
      let buffer := buffer ++ message
      if total ≤ buffer.length then
        (Consume.always (.ok ()),
         { reassembly := .idle, delivered := l2.delivered ++ [(channel, buffer)] },
         tx)
      else
        (Consume.always (.ok ()),
         { l2 with reassembly := .assembling channel total buffer },
         tx)

/-- Per-link connection state shared with the real-time context; the
essential attribute for this core is `llcp_initiated`, true while an
outbound LLCP procedure awaits the peer's reply. -/
structure Connection where
  llcp_initiated : Bool
  deriving DecidableEq, Repr

/-- Outcome of running an operation of this core: a value, or one of the
two process aborts that the code can reach — the `unwrap` of a `None`
receive consumer inside `with_rx`, and the `unreachable!` for control
opcodes owned by the real-time layer. -/
inductive Res (α : Type) where
  | ok (a : α)
  | unwrapAbort
  | unreachableAbort
  deriving DecidableEq, Repr

/-- The data channel packet processor of `responder.rs`: transmit producer,
receive consumer (an `Option`, temporarily taken by `with_rx`), and the
L2CAP state. -/
structure Responder where
  tx : TxQueue
  rx : Option RxQueue
  l2cap : L2CAPState
  deriving DecidableEq, Repr

/-- Model of `Responder::new`: hooks the processor up to the data channel packet
queues, storing the receive consumer as `Some`. -/
def Responder.new (tx : TxQueue) (rx : RxQueue) (l2cap : L2CAPState) : Responder :=
  { tx := tx, rx := some rx, l2cap := l2cap }

/-- Model of `Responder::with_rx`: takes `rx` out of `self` (aborting if it is
`None`, the source's `unwrap`), runs `f` on the consumer and the remaining
`self`, and puts the consumer back. -/
def Responder.with_rx {α : Type} (r : Responder)
    (f : RxQueue → Responder → Res (α × RxQueue × Responder)) : Res (α × Responder) :=
  match r.rx with
  | none => .unwrapAbort
  | some rx =>
      match f rx { r with rx := none } with
      | .ok (result, rx, this) => .ok (result, { this with rx := some rx })
      | .unwrapAbort => .unwrapAbort
      | .unreachableAbort => .unreachableAbort

/-- Modelled from the spec: `consume(handler)` / `consume_pdu_with` of the
packet queue — returns `Eof` on an empty queue without invoking the
handler; otherwise invokes the handler on the head record, removes the
record iff the handler's `Consume` says so, and returns the handler's
result. -/
def RxQueue.consume_pdu_with (q : RxQueue) (this : Responder)
    (f : Responder → Pdu → Res (Consume Unit × Responder)) :
    Res (Except Error Unit × RxQueue × Responder) :=
  match q with
  | [] => .ok (.error .Eof, q, this)
  | pdu :: rest =>
      match f this pdu with
      | .ok (c, this) => .ok (c.result, if c.should_consume then rest else pdu :: rest, this)
      | .unwrapAbort => .unwrapAbort
      | .unreachableAbort => .unreachableAbort

/-- The dispatch closure of `Responder::process_one`, by `Pdu` variant:
feature/version negotiation control PDUs hit `unreachable!`; every other
control PDU is answered with an `UnknownRsp` carrying its opcode, consumed
iff the reply fits in the transmit queue (`Consume::on_success`); data
PDUs are forwarded verbatim to the reassembly engine. -/
def Responder.handle_pdu (this : Responder) (pdu : Pdu) : Res (Consume Unit × Responder) :=
  match pdu with
  | .Control data =>
      match data with
      | .FeatureReq _ => .unreachableAbort
      | .VersionInd _ _ _ => .unreachableAbort
      | pdu =>
          let response := ControlPdu.UnknownRsp pdu.opcode
          match this.tx.produce response.encoded_size Llid.Control response.to_bytes with
          | .ok tx => .ok (Consume.on_success (.ok ()), { this with tx := tx })
          | .error e => .ok (Consume.on_success (.error e), this)
  | .DataStart message =>
      let (c, l2cap, tx) := process_start this.l2cap this.tx message
      .ok (c, { this with l2cap := l2cap, tx := tx })
  | .DataCont message =>
      let (c, l2cap, tx) := process_cont this.l2cap this.tx message
      .ok (c, { this with l2cap := l2cap, tx := tx })

/-- Model of `Responder::process_one`: dequeues and dispatches at most one record
from the receive queue. -/
def Responder.process_one (r : Responder) : Res (Except Error Unit × Responder) :=
  r.with_rx fun rx this => rx.consume_pdu_with this Responder.handle_pdu

/-- Model of `Responder::has_work`: true when the receive consumer reports data. -/
def Responder.has_work (r : Responder) : Res (Bool × Responder) :=
  r.with_rx fun rx this => .ok (rx.has_data, rx, this)

/-- Model of `Responder::llcp`: grants raw access to the LLCP (the `LLCPTx`
capability borrowing the producer and the connection) unless an LLCP
procedure initiated by us is already outstanding, in which case it fails
with `InvalidState`.  It mutates neither the connection nor the
responder. -/
def Responder.llcp (_r : Responder) (conn : Connection) : Except Error Unit × Connection :=
  if conn.llcp_initiated then
    (.error .InvalidState, conn)
  else
    (.ok (), conn)

/-- Model of `LLCPTx::request_conn_params`: sets `llcp_initiated`, then encodes a
`ConnectionParamReq` control PDU and produces it into the transmit queue,
propagating any produce error (the flag is not rolled back on failure). -/
def request_conn_params (conn : Connection) (tx : TxQueue) (params : ConnectionParamRequest) :
    Connection × TxQueue × Except Error Unit :=
  let conn := { conn with llcp_initiated := true }
  let cpdu := ControlPdu.ConnectionParamReq params
  match tx.produce cpdu.encoded_size Llid.Control cpdu.to_bytes with
  | .ok tx => (conn, tx, .ok ())
  | .error e => (conn, tx, .error e)

/-- One public operation of the `Responder` (the connection argument of
`llcp` is part of the operation). -/
inductive Op where
  | hasWork
  | processOne
  | l2capAccess
  | llcpAccess (conn : Connection)

/-- Runs one public operation and keeps the resulting responder state
(`l2cap()` and `llcp()` borrow fields but leave the responder unchanged;
`has_work` and `process_one` go through `with_rx`). -/
def Responder.stepOp (r : Responder) : Op → Res Responder
  | .hasWork =>
      match r.has_work with
      | .ok (_, r) => .ok r
      | .unwrapAbort => .unwrapAbort
      | .unreachableAbort => .unreachableAbort
  | .processOne =>
      match r.process_one with
      | .ok (_, r) => .ok r
      | .unwrapAbort => .unwrapAbort
      | .unreachableAbort => .unreachableAbort
  | .l2capAccess => .ok r
  | .llcpAccess _ => .ok r

/-- Runs a sequence of public operations, stopping at the first abort. -/
def Responder.runOps (r : Responder) : List Op → Res Responder
  | [] => .ok r
  | op :: ops =>
      match r.stepOp op with
      | .ok r => r.runOps ops
      | .unwrapAbort => .unwrapAbort
      | .unreachableAbort => .unreachableAbort

/-- Total byte length of a list of fragments. -/
def sumLens (fs : List (List Nat)) : Nat := (fs.map List.length).sum

/-- Feeds a list of continuation fragments through the reassembly engine in
order, threading the state. -/
def feed_conts (l2 : L2CAPState) (tx : TxQueue) : List (List Nat) → L2CAPState × TxQueue
  | [] => (l2, tx)
  | m :: ms =>
      let (_, l2, tx) := process_cont l2 tx m
      feed_conts l2 tx ms

/-! ## Helper lemmas -/

theorem read16_le16 (n : Nat) (h : n < 65536) :
    read16 (n % 256) (n / 256 % 256) = n := by
  unfold read16
  rw [Nat.mod_eq_of_lt (Nat.div_lt_of_lt_mul (by omega)), Nat.mod_add_div]

theorem sumLens_nil : sumLens [] = 0 := rfl

theorem sumLens_cons (m : List Nat) (ms : List (List Nat)) :
    sumLens (m :: ms) = m.length + sumLens ms := by
  simp [sumLens]

/-- While assembling `buf` toward `total`, feeding continuation fragments
whose accumulated length first reaches `total` at the very last fragment
delivers exactly one payload — the concatenation — and resets to idle. -/
theorem feed_conts_complete (ch total : Nat) (fs : List (List Nat)) :
    ∀ (buf : List Nat) (D : List (Nat × List Nat)) (tx : TxQueue),
      buf.length < total →
      (∀ k, k < fs.length → buf.length + sumLens (fs.take k) < total) →
      buf.length + sumLens fs = total →
      feed_conts ⟨.assembling ch total buf, D⟩ tx fs =
        (⟨.idle, D ++ [(ch, buf ++ fs.flatten)]⟩, tx) := by
  induction fs with
  | nil =>
    intro buf D tx hlt _ hsum
    rw [sumLens_nil] at hsum
    omega
  | cons m ms ih =>
    intro buf D tx hlt hpre hsum
    simp only [feed_conts, process_cont]
    cases ms with
    | nil =>
      have hdone : total ≤ (buf ++ m).length := by
        rw [sumLens_cons, sumLens_nil] at hsum
        simp [List.length_append]
        omega
      rw [if_pos hdone]
      simp only [feed_conts]
      simp
    | cons m2 ms2 =>
      have hnd : ¬ total ≤ (buf ++ m).length := by
        have := hpre 1 (by simp)
        simp only [List.take, sumLens_cons, sumLens_nil] at this
        simp [List.length_append]
        omega
      rw [if_neg hnd]
      have hlt' : (buf ++ m).length < total := by
        simp only [List.length_append]
        simp only [List.length_append] at hnd
        omega
      have hpre' : ∀ k, k < (m2 :: ms2).length →
          (buf ++ m).length + sumLens ((m2 :: ms2).take k) < total := by
        intro k hk
        have := hpre (k + 1) (by simpa using Nat.succ_lt_succ hk)
        simp only [List.take, sumLens_cons] at this
        simp only [List.length_append]
        omega
      have hsum' : (buf ++ m).length + sumLens (m2 :: ms2) = total := by
        rw [sumLens_cons] at hsum
        simp only [List.length_append]
        omega
      rw [ih (buf ++ m) D tx hlt' hpre' hsum']
      simp

/-- While assembling, feeding continuation fragments that never reach the
declared total keeps buffering (in order) and delivers nothing. -/
theorem feed_conts_pending (ch total : Nat) (fs : List (List Nat)) :
    ∀ (buf : List Nat) (D : List (Nat × List Nat)) (tx : TxQueue),
      (∀ k, k ≤ fs.length → buf.length + sumLens (fs.take k) < total) →
      feed_conts ⟨.assembling ch total buf, D⟩ tx fs =
        (⟨.assembling ch total (buf ++ fs.flatten), D⟩, tx) := by
  induction fs with
  | nil =>
    intro buf D tx _
    simp [feed_conts]
  | cons m ms ih =>
    intro buf D tx hpre
    simp only [feed_conts, process_cont]
    have hnd : ¬ total ≤ (buf ++ m).length := by
      have := hpre 1 (by simp)
      simp only [List.take, sumLens_cons, sumLens_nil] at this
      simp [List.length_append]
      omega
    rw [if_neg hnd]
    have hpre' : ∀ k, k ≤ ms.length →
        (buf ++ m).length + sumLens (ms.take k) < total := by
      intro k hk
      have := hpre (k + 1) (by simpa using Nat.succ_le_succ hk)
      simp only [List.take, sumLens_cons] at this
      simp only [List.length_append]
      omega
    rw [ih (buf ++ m) D tx hpre']
    simp

/-- The dispatch closure either returns a value or hits the `unreachable!`,
and the latter only for a control PDU owned by the real-time layer. -/
theorem handle_pdu_cases (this : Responder) (pdu : Pdu) :
    (∃ out, this.handle_pdu pdu = .ok out) ∨
    (this.handle_pdu pdu = .unreachableAbort ∧
      ∃ c, pdu = .Control c ∧ c.handledByRealtime = true) := by
  cases pdu with
  | Control c =>
    cases c with
    | FeatureReq f => exact .inr ⟨rfl, _, rfl, rfl⟩
    | VersionInd a b d => exact .inr ⟨rfl, _, rfl, rfl⟩
    | ConnectionParamReq p =>
      refine .inl ?_
      simp only [Responder.handle_pdu]
      split
      · exact ⟨_, rfl⟩
      · exact ⟨_, rfl⟩
    | UnknownRsp t =>
      refine .inl ?_
      simp only [Responder.handle_pdu]
      split
      · exact ⟨_, rfl⟩
      · exact ⟨_, rfl⟩
    | otherOpcode op =>
      refine .inl ?_
      simp only [Responder.handle_pdu]
      split
      · exact ⟨_, rfl⟩
      · exact ⟨_, rfl⟩
  | DataStart msg => exact .inl ⟨_, rfl⟩
  | DataCont msg => exact .inl ⟨_, rfl⟩

/-- A control PDU owned by the real-time layer sends the dispatch closure
into the `unreachable!` abort. -/
theorem handle_pdu_control_realtime (this : Responder) (c : ControlPdu)
    (hc : c.handledByRealtime = true) :
    this.handle_pdu (Pdu.Control c) = .unreachableAbort := by
  cases c <;> simp_all [ControlPdu.handledByRealtime] <;> rfl

/-- With the receive consumer present, `process_one` never hits the
`with_rx` unwrap and always puts the consumer back. -/
theorem process_one_rx_some (r : Responder) (q : List Pdu) (h : r.rx = some q) :
    r.process_one ≠ .unwrapAbort ∧
    ∀ out r', r.process_one = .ok (out, r') → r'.rx.isSome := by
  obtain ⟨tx, rx, l2⟩ := r
  simp only at h
  subst h
  cases q with
  | nil =>
    constructor
    · intro hcon
      simp [Responder.process_one, Responder.with_rx, RxQueue.consume_pdu_with] at hcon
    · intro out r' hr'
      simp [Responder.process_one, Responder.with_rx, RxQueue.consume_pdu_with] at hr'
      rw [← hr'.2]
      rfl
  | cons pdu rest =>
    rcases handle_pdu_cases { tx := tx, rx := none, l2cap := l2 } pdu with
      ⟨⟨c, this'⟩, hout⟩ | ⟨hun, -⟩
    · constructor
      · intro hcon
        simp [Responder.process_one, Responder.with_rx, RxQueue.consume_pdu_with, hout]
          at hcon
      · intro out r' hr'
        simp [Responder.process_one, Responder.with_rx, RxQueue.consume_pdu_with, hout]
          at hr'
        rw [← hr'.2]
        rfl
    · constructor
      · intro hcon
        simp [Responder.process_one, Responder.with_rx, RxQueue.consume_pdu_with, hun]
          at hcon
      · intro out r' hr'
        simp [Responder.process_one, Responder.with_rx, RxQueue.consume_pdu_with, hun]
          at hr'

/-- With the receive consumer present, `has_work` reports `has_data` and
leaves the responder unchanged. -/
theorem has_work_rx_some (r : Responder) (q : List Pdu) (h : r.rx = some q) :
    r.has_work = .ok (!q.isEmpty, r) := by
  obtain ⟨tx, rx, l2⟩ := r
  simp only at h
  subst h
  rfl

/-- Every public operation preserves presence of the receive consumer and
never hits the `with_rx` unwrap. -/
theorem stepOp_rx (r : Responder) (op : Op) (hr : r.rx.isSome) :
    r.stepOp op ≠ .unwrapAbort ∧ ∀ r', r.stepOp op = .ok r' → r'.rx.isSome := by
  obtain ⟨q, hq⟩ := Option.isSome_iff_exists.mp hr
  cases op with
  | hasWork =>
    have hw := has_work_rx_some r q hq
    simp only [Responder.stepOp, hw]
    exact ⟨by simp, fun r' h => by simp at h; subst h; exact hr⟩
  | processOne =>
    obtain ⟨hnub, hok⟩ := process_one_rx_some r q hq
    simp only [Responder.stepOp]
    cases hres : r.process_one with
    | ok p =>
      obtain ⟨out, r'⟩ := p
      have := hok out r' hres
      exact ⟨by simp, fun r'' h => by simp at h; subst h; exact this⟩
    | unwrapAbort => exact absurd hres hnub
    | unreachableAbort => exact ⟨by simp, fun r'' h => by simp at h⟩
  | l2capAccess =>
    exact ⟨by simp [Responder.stepOp], fun r' h => by
      simp [Responder.stepOp] at h; subst h; exact hr⟩
  | llcpAccess conn =>
    exact ⟨by simp [Responder.stepOp], fun r' h => by
      simp [Responder.stepOp] at h; subst h; exact hr⟩

/-- The receive-consumer invariant is preserved across any sequence of
public operations. -/
theorem runOps_rx_invariant (ops : List Op) :
    ∀ (r : Responder), r.rx.isSome →
      r.runOps ops ≠ .unwrapAbort ∧ ∀ r', r.runOps ops = .ok r' → r'.rx.isSome := by
  induction ops with
  | nil =>
    intro r hr
    exact ⟨by simp [Responder.runOps], fun r' h => by
      simp [Responder.runOps] at h; subst h; exact hr⟩
  | cons op ops ih =>
    intro r hr
    obtain ⟨hstep, hstepok⟩ := stepOp_rx r op hr
    simp only [Responder.runOps]
    cases hres : r.stepOp op with
    | ok r2 =>
      have hr2 := hstepok r2 hres
      exact ih r2 hr2
    | unwrapAbort => exact absurd hres hstep
    | unreachableAbort => exact ⟨by simp, fun r' h => by simp at h⟩

/-! ## Claim theorems -/

/-- C1: for a control PDU whose opcode has no special handling at the head
of the receive queue, `process_one` enqueues exactly one "unknown PDU"
rejection reply carrying the incoming opcode; the incoming record is
removed iff the reply fit in the transmit queue, and on `QueueFull` the
whole state is unchanged, so a later call observes the identical record —
no record lost, no reply duplicated. -/
theorem C1_unknown_pdu_reply (r : Responder) (c : ControlPdu) (rest : List Pdu)
    (hrx : r.rx = some (Pdu.Control c :: rest))
    (hc : c.handledByRealtime = false) :
    (2 ≤ r.tx.freeBytes →
       r.process_one =
         .ok (.ok (),
              { tx := { records := r.tx.records ++ [(Llid.Control, [7, c.opcode])],
                        freeBytes := r.tx.freeBytes - 2 },
                rx := some rest,
                l2cap := r.l2cap })) ∧
    (r.tx.freeBytes < 2 →
       r.process_one = .ok (.error Error.QueueFull, r)) := by
  obtain ⟨⟨recs, free⟩, rx, l2⟩ := r
  simp only at hrx ⊢
  subst hrx
  cases c with
  | FeatureReq f => simp [ControlPdu.handledByRealtime] at hc
  | VersionInd a b d => simp [ControlPdu.handledByRealtime] at hc
  | ConnectionParamReq p =>
    refine ⟨fun h => ?_, fun h => ?_⟩ <;>
      simp only [Responder.process_one, Responder.with_rx, RxQueue.consume_pdu_with,
        Responder.handle_pdu, TxQueue.produce, ControlPdu.encoded_size,
        ControlPdu.to_bytes, ControlPdu.opcode]
    · rw [if_pos h]; rfl
    · rw [if_neg (by omega)]; rfl
  | UnknownRsp t =>
    refine ⟨fun h => ?_, fun h => ?_⟩ <;>
      simp only [Responder.process_one, Responder.with_rx, RxQueue.consume_pdu_with,
        Responder.handle_pdu, TxQueue.produce, ControlPdu.encoded_size,
        ControlPdu.to_bytes, ControlPdu.opcode]
    · rw [if_pos h]; rfl
    · rw [if_neg (by omega)]; rfl
  | otherOpcode op =>
    refine ⟨fun h => ?_, fun h => ?_⟩ <;>
      simp only [Responder.process_one, Responder.with_rx, RxQueue.consume_pdu_with,
        Responder.handle_pdu, TxQueue.produce, ControlPdu.encoded_size,
        ControlPdu.to_bytes, ControlPdu.opcode]
    · rw [if_pos h]; rfl
    · rw [if_neg (by omega)]; rfl

/-- Witness for C1: a 1-byte unrecognized opcode answered in a roomy
transmit queue. -/
theorem C1_unknown_pdu_reply_witness :
    Responder.process_one
        ⟨⟨[], 10⟩, some [Pdu.Control (ControlPdu.otherOpcode 5)], ⟨.idle, []⟩⟩ =
      .ok (.ok (), ⟨⟨[(Llid.Control, [7, 5])], 8⟩, some [], ⟨.idle, []⟩⟩) :=
  (C1_unknown_pdu_reply
    ⟨⟨[], 10⟩, some [Pdu.Control (ControlPdu.otherOpcode 5)], ⟨.idle, []⟩⟩
    (ControlPdu.otherOpcode 5) [] rfl rfl).1 (by decide)

/-- C2, counterexample: requesting the LLCP initiation capability on a
connection with `llcp_initiated = false` succeeds but does NOT set the flag
to true — `Responder::llcp` only checks the flag; it is `request_conn_params`
that sets it. -/
theorem C2_counterexample :
    (Responder.llcp ⟨⟨[], 4⟩, some [], ⟨.idle, []⟩⟩ ⟨false⟩).1 = .ok () ∧
    ¬ (Responder.llcp ⟨⟨[], 4⟩, some [], ⟨.idle, []⟩⟩ ⟨false⟩).2.llcp_initiated = true := by
  decide

/-- C2, amended: requesting the capability with `llcp_initiated = false`
succeeds and leaves the connection unchanged (the flag stays false); the
flag becomes true when `request_conn_params` is invoked on the granted
capability; a request while the flag is true fails with `InvalidState` and
leaves the connection unchanged. -/
theorem C2_llcp_amended (r : Responder) (conn : Connection) (tx : TxQueue)
    (params : ConnectionParamRequest) :
    (conn.llcp_initiated = false → r.llcp conn = (.ok (), conn)) ∧
    (request_conn_params conn tx params).1.llcp_initiated = true ∧
    (conn.llcp_initiated = true → r.llcp conn = (.error Error.InvalidState, conn)) := by
  refine ⟨fun h => ?_, ?_, fun h => ?_⟩
  · simp [Responder.llcp, h]
  · simp only [request_conn_params]
    split <;> rfl
  · simp [Responder.llcp, h]

/-- Witness for C2's amended statement at concrete inputs. -/
theorem C2_llcp_amended_witness :
    Responder.llcp ⟨⟨[], 4⟩, some [], ⟨.idle, []⟩⟩ ⟨false⟩ = (.ok (), ⟨false⟩) ∧
    (request_conn_params ⟨false⟩ ⟨[], 4⟩ ⟨1, 2, 3, 4⟩).1.llcp_initiated = true ∧
    Responder.llcp ⟨⟨[], 4⟩, some [], ⟨.idle, []⟩⟩ ⟨true⟩ =
      (.error Error.InvalidState, ⟨true⟩) :=
  ⟨(C2_llcp_amended ⟨⟨[], 4⟩, some [], ⟨.idle, []⟩⟩ ⟨false⟩ ⟨[], 4⟩ ⟨1, 2, 3, 4⟩).1 rfl,
   (C2_llcp_amended ⟨⟨[], 4⟩, some [], ⟨.idle, []⟩⟩ ⟨false⟩ ⟨[], 4⟩ ⟨1, 2, 3, 4⟩).2.1,
   (C2_llcp_amended ⟨⟨[], 4⟩, some [], ⟨.idle, []⟩⟩ ⟨true⟩ ⟨[], 4⟩ ⟨1, 2, 3, 4⟩).2.2 rfl⟩

/-- C3: when the underlying `produce` fails, `request_conn_params`
propagates exactly that error, the transmit queue is unchanged, and
`llcp_initiated` is left true (not rolled back), so the connection cannot
start a new procedure afterwards (`llcp` fails with `InvalidState`). -/
theorem C3_request_conn_params_no_rollback (conn : Connection) (tx : TxQueue)
    (params : ConnectionParamRequest) (e : Error) (r : Responder)
    (h : tx.produce (ControlPdu.ConnectionParamReq params).encoded_size Llid.Control
           (ControlPdu.ConnectionParamReq params).to_bytes = .error e) :
    request_conn_params conn tx params = ({ llcp_initiated := true }, tx, .error e) ∧
    (r.llcp { llcp_initiated := true }).1 = .error Error.InvalidState := by
  constructor
  · simp only [request_conn_params]
    rw [h]
  · rfl

/-- Witness for C3: a transmit queue with 3 free bytes cannot hold the
9-byte request; the error is `QueueFull` and the flag stays set. -/
theorem C3_request_conn_params_no_rollback_witness :
    request_conn_params ⟨false⟩ ⟨[], 3⟩ ⟨1, 2, 3, 4⟩ =
      (⟨true⟩, ⟨[], 3⟩, .error Error.QueueFull) ∧
    (Responder.llcp ⟨⟨[], 3⟩, some [], ⟨.idle, []⟩⟩ ⟨true⟩).1 =
      .error Error.InvalidState :=
  C3_request_conn_params_no_rollback ⟨false⟩ ⟨[], 3⟩ ⟨1, 2, 3, 4⟩ Error.QueueFull
    ⟨⟨[], 3⟩, some [], ⟨.idle, []⟩⟩ rfl

/-- C4: with a control PDU at the head of the receive queue, `process_one`
aborts the process via `unreachable!` exactly when that PDU is a
feature-negotiation or version-negotiation message; under the precondition
that the real-time layer intercepts those opcodes, the abort branch is
unreachable. -/
theorem C4_realtime_opcodes_abort (r : Responder) (c : ControlPdu) (rest : List Pdu)
    (h : r.rx = some (Pdu.Control c :: rest)) :
    (r.process_one = .unreachableAbort ↔ c.handledByRealtime = true) := by
  obtain ⟨tx, rx, l2⟩ := r
  simp only at h
  subst h
  constructor
  · intro habort
    rcases handle_pdu_cases { tx := tx, rx := none, l2cap := l2 } (Pdu.Control c) with
      ⟨out, hout⟩ | ⟨-, c', hc', hrt⟩
    · obtain ⟨cns, this'⟩ := out
      simp [Responder.process_one, Responder.with_rx, RxQueue.consume_pdu_with, hout]
        at habort
    · injection hc' with hcc
      subst hcc
      exact hrt
  · intro hrt
    have hun := handle_pdu_control_realtime { tx := tx, rx := none, l2cap := l2 } c hrt
    simp [Responder.process_one, Responder.with_rx, RxQueue.consume_pdu_with, hun]

/-- Witness for C4: a `FeatureReq` at the head aborts the process. -/
theorem C4_realtime_opcodes_abort_witness :
    Responder.process_one
        ⟨⟨[], 4⟩, some [Pdu.Control (ControlPdu.FeatureReq 0)], ⟨.idle, []⟩⟩ =
      .unreachableAbort :=
  (C4_realtime_opcodes_abort
    ⟨⟨[], 4⟩, some [Pdu.Control (ControlPdu.FeatureReq 0)], ⟨.idle, []⟩⟩
    (ControlPdu.FeatureReq 0) [] rfl).mpr rfl

/-- C5: on an empty receive queue `process_one` returns `Eof`, the dispatch
handler is never invoked, and the responder — both queues, the L2CAP
reassembly state, all state — is exactly as before the call. -/
theorem C5_process_one_empty (r : Responder) (h : r.rx = some []) :
    r.process_one = .ok (.error Error.Eof, r) := by
  cases r with
  | mk tx rx l2 =>
    simp only at h
    subst h
    rfl

/-- Witness for C5 at a concrete responder. -/
theorem C5_process_one_empty_witness :
    Responder.process_one ⟨⟨[], 4⟩, some [], ⟨.idle, []⟩⟩ =
      .ok (.error Error.Eof, ⟨⟨[], 4⟩, some [], ⟨.idle, []⟩⟩) :=
  C5_process_one_empty ⟨⟨[], 4⟩, some [], ⟨.idle, []⟩⟩ rfl

/-- C6: a payload split across one `process_start` (declaring `total` and
`channel` in its header) and N `process_cont` calls whose accumulated
length first reaches the declared total at the last fragment is forwarded
to the routing capability exactly once, with contents equal to the
in-order concatenation of all fragments; after any proper prefix of the
continuations nothing has been delivered — no partial payload ever
reaches the routing capability. -/
theorem C6_reassembly_exactly_once (l2 : L2CAPState) (tx : TxQueue)
    (total channel : Nat) (f0 : List Nat) (fs : List (List Nat))
    (htot : total < 65536) (hch : channel < 65536)
    (h0 : f0.length < total)
    (hpre : ∀ k, k < fs.length → f0.length + sumLens (fs.take k) < total)
    (hsum : f0.length + sumLens fs = total) :
    (feed_conts (process_start l2 tx (le16 total ++ le16 channel ++ f0)).2.1
                (process_start l2 tx (le16 total ++ le16 channel ++ f0)).2.2 fs).1.delivered
        = l2.delivered ++ [(channel, f0 ++ fs.flatten)] ∧
    ∀ k, k < fs.length →
      (feed_conts (process_start l2 tx (le16 total ++ le16 channel ++ f0)).2.1
                  (process_start l2 tx (le16 total ++ le16 channel ++ f0)).2.2
                  (fs.take k)).1.delivered
        = l2.delivered := by
  have hps : process_start l2 tx (le16 total ++ le16 channel ++ f0) =
      (Consume.always (.ok ()),
       ⟨.assembling channel total f0, l2.delivered⟩, tx) := by
    simp only [le16, List.cons_append, List.nil_append, process_start]
    rw [read16_le16 total htot, read16_le16 channel hch]
    rw [if_neg (by omega)]
  rw [hps]
  constructor
  · rw [feed_conts_complete channel total fs f0 l2.delivered tx h0 hpre hsum]
  · intro k hk
    have hpre' : ∀ j, j ≤ (fs.take k).length →
        f0.length + sumLens ((fs.take k).take j) < total := by
      intro j hj
      rw [List.take_take]
      rcases Nat.lt_or_ge j fs.length with hj2 | hj2
      · have := hpre (min j k) (by omega)
        exact this
      · have : min j k = k := by
          rw [List.length_take] at hj
          omega
        rw [this]
        exact hpre k hk
    rw [feed_conts_pending channel total (fs.take k) f0 l2.delivered tx hpre']

/-- Witness for C6: total 5, channel 3, start fragment `[1,2]`,
continuations `[3,4]` and `[5]` — one delivery of `[1,2,3,4,5]`. -/
theorem C6_reassembly_exactly_once_witness :
    (feed_conts (process_start ⟨.idle, []⟩ ⟨[], 0⟩ (le16 5 ++ le16 3 ++ [1, 2])).2.1
                (process_start ⟨.idle, []⟩ ⟨[], 0⟩ (le16 5 ++ le16 3 ++ [1, 2])).2.2
                [[3, 4], [5]]).1.delivered = [(3, [1, 2, 3, 4, 5])] :=
  (C6_reassembly_exactly_once ⟨.idle, []⟩ ⟨[], 0⟩ 5 3 [1, 2] [[3, 4], [5]]
    (by decide) (by decide) (by decide)
    (fun k hk => by
      have hk2 : k < 2 := hk
      interval_cases k <;> decide)
    (by decide)).1

/-- C7: `has_work` succeeds, reports exactly whether the receive consumer
holds at least one unread record (i.e. whether `consume`/`process_one`
would find one), and modifies neither queue nor any other state. -/
theorem C7_has_work (r : Responder) (q : RxQueue) (h : r.rx = some q) :
    r.has_work = .ok (!q.isEmpty, r) ∧
      ((!q.isEmpty) = true ↔ ∃ pdu rest, q = pdu :: rest) := by
  constructor
  · cases r with
    | mk tx rx l2 =>
      simp only at h
      subst h
      rfl
  · cases q with
    | nil => simp [List.isEmpty]
    | cons pdu rest => simp [List.isEmpty]

/-- Witness for C7 at a one-record queue. -/
theorem C7_has_work_witness :
    Responder.has_work ⟨⟨[], 4⟩, some [Pdu.DataCont []], ⟨.idle, []⟩⟩ =
      .ok (true, ⟨⟨[], 4⟩, some [Pdu.DataCont []], ⟨.idle, []⟩⟩) :=
  (C7_has_work ⟨⟨[], 4⟩, some [Pdu.DataCont []], ⟨.idle, []⟩⟩ [Pdu.DataCont []] rfl).1

/-- C8: a `DataStart`/`DataCont` record at the head of the receive queue
has its message bytes passed verbatim to the reassembly engine's
`process_start`/`process_cont`, and the record's consume-or-keep outcome
and returned result are exactly what that call returns. -/
theorem C8_data_forwarding (r : Responder) (msg : List Nat) (rest : List Pdu) :
    (r.rx = some (Pdu.DataStart msg :: rest) →
       r.process_one =
         .ok ((process_start r.l2cap r.tx msg).1.result,
              { tx := (process_start r.l2cap r.tx msg).2.2,
                rx := some (if (process_start r.l2cap r.tx msg).1.should_consume
                            then rest else Pdu.DataStart msg :: rest),
                l2cap := (process_start r.l2cap r.tx msg).2.1 })) ∧
    (r.rx = some (Pdu.DataCont msg :: rest) →
       r.process_one =
         .ok ((process_cont r.l2cap r.tx msg).1.result,
              { tx := (process_cont r.l2cap r.tx msg).2.2,
                rx := some (if (process_cont r.l2cap r.tx msg).1.should_consume
                            then rest else Pdu.DataCont msg :: rest),
                l2cap := (process_cont r.l2cap r.tx msg).2.1 })) := by
  obtain ⟨tx, rx, l2⟩ := r
  constructor <;> intro h <;> simp only at h <;> subst h
  · rcases hps : process_start l2 tx msg with ⟨c, l2', tx'⟩
    simp [Responder.process_one, Responder.with_rx, RxQueue.consume_pdu_with,
      Responder.handle_pdu, hps]
  · rcases hps : process_cont l2 tx msg with ⟨c, l2', tx'⟩
    simp [Responder.process_one, Responder.with_rx, RxQueue.consume_pdu_with,
      Responder.handle_pdu, hps]

/-- Witness for C8: a `DataStart` whose header declares 5 bytes buffers its
1-byte payload and is consumed. -/
theorem C8_data_forwarding_witness :
    Responder.process_one
        ⟨⟨[], 0⟩, some [Pdu.DataStart [5, 0, 3, 0, 9]], ⟨.idle, []⟩⟩ =
      .ok (.ok (), ⟨⟨[], 0⟩, some [], ⟨.assembling 3 5 [9], []⟩⟩) :=
  (C8_data_forwarding ⟨⟨[], 0⟩, some [Pdu.DataStart [5, 0, 3, 0, 9]], ⟨.idle, []⟩⟩
    [5, 0, 3, 0, 9] []).1 rfl

/-- C9: decoding the bytes produced by encoding a
connection-parameter-request control PDU reproduces the original
parameters exactly, and the number of bytes written equals
`encoded_size`. -/
theorem C9_conn_param_roundtrip (p : ConnectionParamRequest)
    (h1 : p.interval_min < 65536) (h2 : p.interval_max < 65536)
    (h3 : p.slave_latency < 65536) (h4 : p.supervision_timeout < 65536) :
    ControlPdu.from_bytes (ControlPdu.ConnectionParamReq p).to_bytes =
      .ok (.ConnectionParamReq p) ∧
    (ControlPdu.ConnectionParamReq p).to_bytes.length =
      (ControlPdu.ConnectionParamReq p).encoded_size := by
  obtain ⟨a, b, c, d⟩ := p
  constructor
  · simp only [ControlPdu.to_bytes, le16, List.cons_append, List.nil_append,
      ControlPdu.from_bytes]
    rw [read16_le16 a h1, read16_le16 b h2, read16_le16 c h3, read16_le16 d h4]
  · simp [ControlPdu.to_bytes, ControlPdu.encoded_size, le16]

/-- Witness for C9 at concrete parameters. -/
theorem C9_conn_param_roundtrip_witness :
    ControlPdu.from_bytes (ControlPdu.ConnectionParamReq ⟨1, 2, 3, 4⟩).to_bytes =
      .ok (.ConnectionParamReq ⟨1, 2, 3, 4⟩) ∧
    (ControlPdu.ConnectionParamReq ⟨1, 2, 3, 4⟩).to_bytes.length =
      (ControlPdu.ConnectionParamReq ⟨1, 2, 3, 4⟩).encoded_size :=
  C9_conn_param_roundtrip ⟨1, 2, 3, 4⟩ (by decide) (by decide) (by decide) (by decide)

/-- C10: starting from `Responder::new`, any sequence of public operations
keeps the `rx` field `Some` — `with_rx` always restores the consumer it
took, so its `unwrap` never aborts the process. -/
theorem C10_rx_always_restored (tx : TxQueue) (q : RxQueue) (l2 : L2CAPState)
    (ops : List Op) :
    (Responder.new tx q l2).runOps ops ≠ .unwrapAbort ∧
    ∀ r', (Responder.new tx q l2).runOps ops = .ok r' → r'.rx.isSome :=
  runOps_rx_invariant ops (Responder.new tx q l2) rfl

/-- Witness for C10: one `process_one` on a one-record queue ends with the
consumer restored. -/
theorem C10_rx_always_restored_witness :
    (Responder.new ⟨[], 4⟩ [Pdu.DataCont []] ⟨.idle, []⟩).runOps [Op.processOne] ≠
      .unwrapAbort ∧
    (⟨⟨[], 4⟩, some [], ⟨.idle, []⟩⟩ : Responder).rx.isSome :=
  ⟨(C10_rx_always_restored ⟨[], 4⟩ [Pdu.DataCont []] ⟨.idle, []⟩ [Op.processOne]).1,
   (C10_rx_always_restored ⟨[], 4⟩ [Pdu.DataCont []] ⟨.idle, []⟩ [Op.processOne]).2
     ⟨⟨[], 4⟩, some [], ⟨.idle, []⟩⟩ rfl⟩
